import Mathlib

/-!
Verification development for `examples/livehunt_network_watch.py` (vt-py).

The script maintains four remote YARA "nethunting" rulesets (one per entity
kind) driven by a single watched-domain list.  We shallow-embed its pure core:
Python strings are `List Char` (Python `str` comparison and `list.sort()` use
code-point lexicographic order, which is exactly Mathlib's `Lex (· < ·)` order
on `List Char`), Python `str.replace` / `str.split` become fuel-indexed
structural recursions so that everything kernel-evaluates, the `json` module
is modelled by an explicit encoder/decoder for arrays of strings (the only
shape the script's embedded-comment convention uses), and the fallible parts
(uncaught exceptions, `sys.exit(1)` paths) return `Except`.
-/

/-- Python `str.replace(pat, repl)` restricted to fuel-many scanning steps:
replaces every non-overlapping occurrence of `pat`, scanning left to right.
An empty pattern leaves the string unchanged (the script never uses one). -/
def replaceFuel (pat repl : List Char) : Nat → List Char → List Char
  | 0, s => s
  | fuel + 1, s =>
    match s with
    | [] => []
    | c :: cs =>
      if pat ≠ [] ∧ pat.isPrefixOf s then
        repl ++ replaceFuel pat repl fuel (s.drop pat.length)
      else
        c :: replaceFuel pat repl fuel cs

/-- Python `s.replace(pat, repl)`: the fuel `s.length` always suffices because
each scanning step consumes at least one character of `s`. -/
def pyReplace (s pat repl : List Char) : List Char :=
  replaceFuel pat repl s.length s

/-- One step of Python `str.split(sep)` with a non-empty separator, fuel-indexed;
`acc` holds the current token reversed. -/
def splitFuel (sep : List Char) : Nat → List Char → List Char → List (List Char)
  | 0, acc, s => [acc.reverse ++ s]
  | fuel + 1, acc, s =>
    match s with
    | [] => [acc.reverse]
    | c :: cs =>
      if sep ≠ [] ∧ sep.isPrefixOf s then
        acc.reverse :: splitFuel sep fuel [] (s.drop sep.length)
      else
        splitFuel sep fuel (c :: acc) cs

/-- Python `s.split(sep)` for a non-empty `sep`.  The source uses
`split('---', 2)`; a `maxsplit` only changes segments with index ≥ 2 and the
script reads index 1 only, so the unbounded split is the faithful model of the
value actually read. -/
def pySplit (s sep : List Char) : List (List Char) :=
  splitFuel sep (s.length + 1) [] s

/-- Whether `pat` occurs as a contiguous substring of `s` (Python `in`). -/
def occursB (pat : List Char) : List Char → Bool
  | [] => pat.isEmpty
  | c :: cs => pat.isPrefixOf (c :: cs) || occursB pat cs

/-- Model of `re.compile(r'[^\w\d]').sub('_', domain)` (line 83): every
character outside the word class becomes an underscore (`\d ⊆ \w`, so the
class is just "non word character").  Python's `\w` on `str` patterns is
Unicode-aware; this embedding decides it with the ASCII test
`Char.isAlphanum` / underscore, which agrees with Python exactly on code
points below 128.  Non-ASCII word characters — which Python would keep but
this model replaces — cannot occur in a legal network host name, and every
sanitization theorem below is scoped to ASCII strings, the fragment this
definition embeds faithfully. -/
def sanitizeDomain : List Char → List Char
  | [] => []
  | c :: cs => (if c.isAlphanum || c = '_' then c else '_') :: sanitizeDomain cs

/-- Lowercase hex digit, as produced by Python's `json` escapes. -/
def hexDigit (n : Nat) : Char :=
  if n < 10 then Char.ofNat (48 + n) else Char.ofNat (87 + n)

/-- A `\uXXXX` escape for a 16-bit value. -/
def uHex4 (n : Nat) : List Char :=
  ['\\', 'u', hexDigit (n / 4096 % 16), hexDigit (n / 256 % 16),
   hexDigit (n / 16 % 16), hexDigit (n % 16)]

/-- How `json.dumps` (default `ensure_ascii=True`) renders one character of a
string. -/
def jsonEscapeChar (c : Char) : List Char :=
  if c = '"' then ['\\', '"']
  else if c = '\\' then ['\\', '\\']
  else if c = '\n' then ['\\', 'n']
  else if c = '\t' then ['\\', 't']
  else if c = '\r' then ['\\', 'r']
  else if c = '\x08' then ['\\', 'b']
  else if c = '\x0c' then ['\\', 'f']
  else if c.toNat < 32 || c.toNat > 126 then
    if c.toNat < 65536 then uHex4 c.toNat
    else
      uHex4 (55296 + (c.toNat - 65536) / 1024) ++ uHex4 (56320 + (c.toNat - 65536) % 1024)
  else [c]

/-- `json.dumps` of one string (including the surrounding quotes). -/
def jsonEncodeString (s : List Char) : List Char :=
  '"' :: ((s.map jsonEscapeChar).flatten ++ ['"'])

/-- `json.dumps(domains, indent=1)` for a list of strings (line 71): `[]` for
the empty list, otherwise each item on its own line indented by one space,
items separated by commas, closing bracket on a fresh line. -/
def jsonDumpsIndent1 (l : List (List Char)) : List Char :=
  match l with
  | [] => ['[', ']']
  | _ =>
    '[' :: (List.intercalate [','] (l.map (fun s => '\n' :: ' ' :: jsonEncodeString s)) ++
      ['\n', ']'])

/-- JSON whitespace. -/
def isJsonWs (c : Char) : Bool :=
  c = ' ' || c = '\t' || c = '\n' || c = '\r'

/-- Drop leading JSON whitespace. -/
def skipWs : List Char → List Char
  | [] => []
  | c :: cs => if isJsonWs c then skipWs cs else c :: cs

/-- Value of one hex digit, if any. -/
def hexVal (c : Char) : Option Nat :=
  if '0' ≤ c ∧ c ≤ '9' then some (c.toNat - 48)
  else if 'a' ≤ c ∧ c ≤ 'f' then some (c.toNat - 87)
  else if 'A' ≤ c ∧ c ≤ 'F' then some (c.toNat - 70)
  else none

/-- Parse the body of a JSON string literal (opening quote already consumed),
returning the decoded characters and the rest of the input.  Models the strict
`json.loads` string grammar: raw control characters are rejected, escapes are
decoded; a `\uXXXX` escape must denote a valid scalar value (the script's
embedded headers never contain surrogate pairs). -/
def jsonStringBody : Nat → List Char → Option (List Char × List Char)
  | 0, _ => none
  | fuel + 1, s =>
    match s with
    | [] => none
    | '"' :: rest => some ([], rest)
    | '\\' :: esc =>
      match esc with
      | '"' :: rest => (jsonStringBody fuel rest).map (fun r => ('"' :: r.1, r.2))
      | '\\' :: rest => (jsonStringBody fuel rest).map (fun r => ('\\' :: r.1, r.2))
      | '/' :: rest => (jsonStringBody fuel rest).map (fun r => ('/' :: r.1, r.2))
      | 'n' :: rest => (jsonStringBody fuel rest).map (fun r => ('\n' :: r.1, r.2))
      | 't' :: rest => (jsonStringBody fuel rest).map (fun r => ('\t' :: r.1, r.2))
      | 'r' :: rest => (jsonStringBody fuel rest).map (fun r => ('\r' :: r.1, r.2))
      | 'b' :: rest => (jsonStringBody fuel rest).map (fun r => ('\x08' :: r.1, r.2))
      | 'f' :: rest => (jsonStringBody fuel rest).map (fun r => ('\x0c' :: r.1, r.2))
      | 'u' :: h1 :: h2 :: h3 :: h4 :: rest =>
        match hexVal h1, hexVal h2, hexVal h3, hexVal h4 with
        | some a, some b, some c, some d =>
          let n := a * 4096 + b * 256 + c * 16 + d
          if h : n.isValidChar then
            (jsonStringBody fuel rest).map (fun r => (Char.ofNatAux n h :: r.1, r.2))
          else none
        | _, _, _, _ => none
      | _ => none
    | c :: rest =>
      if c.toNat < 32 then none
      else (jsonStringBody fuel rest).map (fun r => (c :: r.1, r.2))

/-- Parse the items of a JSON array of strings, positioned at a string literal
(leading whitespace already skipped); consumes up to and including the closing
bracket. -/
def jsonItems : Nat → List Char → Option (List (List Char) × List Char)
  | 0, _ => none
  | fuel + 1, s =>
    match s with
    | '"' :: rest =>
      match jsonStringBody (rest.length + 1) rest with
      | none => none
      | some (str, rest₂) =>
        match skipWs rest₂ with
        | ',' :: rest₃ =>
          (jsonItems fuel (skipWs rest₃)).map (fun r => (str :: r.1, r.2))
        | ']' :: rest₃ => some ([str], rest₃)
        | _ => none
    | _ => none

/-- Model of `json.loads` restricted to JSON arrays of strings — the only
value shape the script's `---`-delimited comment-header convention stores
(spec §6).  Any other input is a decode failure, which the script does not
catch. -/
def jsonLoadsStrings (s : List Char) : Option (List (List Char)) :=
  match skipWs s with
  | '[' :: rest =>
    match skipWs rest with
    | ']' :: rest₂ => if skipWs rest₂ = [] then some [] else none
    | rest₂ =>
      match jsonItems (rest₂.length + 1) rest₂ with
      | some (items, rest₃) => if skipWs rest₃ = [] then some items else none
      | none => none
  | _ => none

/-- `'auto_network_watch_'`, the fixed name stem of the managed rulesets
(`RULESET_PREFIX` in the script, line 37). -/
def RULESET_STEM : List Char := "auto_network_watch_".data

/-- `RULESET_ENTITY` (line 39): the four tracked entity kinds, in order. -/
def RULESET_ENTITY : List (List Char) :=
  ["file".data, "url".data, "domain".data, "ip_address".data]

/-- `extract_domains_from_rule` (lines 43–45):
`json.loads(rules.split('*/')[0].split('---', 2)[1])`.  `none` models the
uncaught exception (`IndexError` when no `---` pair exists, `ValueError` from
`json.loads`). -/
def extract_domains_from_rule (rules : List Char) : Option (List (List Char)) :=
  match (pySplit ((pySplit rules "*/".data).headD []) "---".data).get? 1 with
  | none => none
  | some seg => jsonLoadsStrings seg

/-- One remote ruleset as yielded by the hunting-rulesets iterator. -/
structure RawRuleset where
  id : List Char
  name : List Char
  rules : List Char
deriving DecidableEq

/-- What the `get_rulesets` loop stores per entity kind (lines 59–62). -/
structure RulesetRecord where
  id : List Char
  name : List Char
  rules : List Char
  domains : List (List Char)
deriving DecidableEq

/-- One event produced by the remote iterator: a ruleset, or the API error
that aborts the iteration (`vt.error.APIError`). -/
inductive FetchEvent where
  | item (r : RawRuleset)
  | apiError (msg : List Char)
deriving DecidableEq

/-- The `rulesets` dict, entity kind → record, in insertion order. -/
abbrev RulesetMap := List (List Char × RulesetRecord)

/-- Python dict assignment `m[k] = v`: overwrite in place, else append. -/
def dictSet (m : RulesetMap) (k : List Char) (v : RulesetRecord) : RulesetMap :=
  match m with
  | [] => [(k, v)]
  | (k', v') :: rest => if k' = k then (k, v) :: rest else (k', v') :: dictSet rest k v

/-- Python `m.get(k)`. -/
def dictGet (m : RulesetMap) (k : List Char) : Option RulesetRecord :=
  match m with
  | [] => none
  | (k', v') :: rest => if k' = k then some v' else dictGet rest k

/-- `ruleset.name.split(RULESET_PREFIX)[1]` (line 58); `none` models the
`IndexError` when the name does not contain the stem. -/
def entityOfName (name : List Char) : Option (List Char) :=
  (pySplit name RULESET_STEM).get? 1

/-- The line printed by the `except` clause of `get_rulesets` (line 65). -/
def fetchErrorLine (msg : List Char) : List Char :=
  "Error retrieving auto_network_watch_* rulesets: ".data ++ msg

/-- The loop of `get_rulesets` (lines 57–67) over the event stream: items are
recorded keyed by entity kind; an `APIError` stops the iteration, is printed,
and whatever was collected so far is returned.  `Except.error` models an
exception other than `vt.error.APIError` escaping the function (those are not
caught).  The second component of the result is the log of printed lines. -/
def getRulesetsLoop :
    List FetchEvent → RulesetMap → Except (List Char) (RulesetMap × List (List Char))
  | [], acc => .ok (acc, [])
  | .apiError msg :: _, acc => .ok (acc, [fetchErrorLine msg])
  | .item r :: rest, acc =>
    match entityOfName r.name with
    | none => .error "IndexError".data
    | some entity =>
      match extract_domains_from_rule r.rules with
      | none => .error "ValueError".data
      | some doms =>
        getRulesetsLoop rest (dictSet acc entity ⟨r.id, r.name, r.rules, doms⟩)

/-- `get_rulesets` (lines 47–67), with the remote iterator abstracted as its
event stream. -/
def get_rulesets (events : List FetchEvent) :
    Except (List Char) (RulesetMap × List (List Char)) :=
  getRulesetsLoop events []

/-- The `${domain_list_json}` placeholder of the body template. -/
def domainListJsonPH : List Char := "$\x7bdomain_list_json\x7d".data

/-- The `${domain}` placeholder of the per-kind rule template. -/
def domainPH : List Char := "$\x7bdomain\x7d".data

/-- The `${domain_escaped}` placeholder of the per-kind rule template. -/
def domainEscapedPH : List Char := "$\x7bdomain_escaped\x7d".data

/-- The per-domain part of the loop body of `render_template` (lines 82–87):
substitute the literal domain for `${domain}`, then the sanitized identifier
for `${domain_escaped}`. -/
def renderRuleBlock (ruleBlock domain : List Char) : List Char :=
  pyReplace (pyReplace ruleBlock domainPH domain) domainEscapedPH (sanitizeDomain domain)

/-- `render_template` (lines 70–88), with the two template files' contents
(`_body.yara` and `<entity>.yara`, external filesystem collaborators) passed
in as `bodyT` and `ruleBlock`.  Mirrors the imperative accumulation: body with
the JSON-encoded domain list substituted, a newline, then for each domain the
rendered rule block and a newline. -/
def render_template (bodyT ruleBlock : List Char) (domains : List (List Char)) :
    List Char :=
  let tmpl₀ := pyReplace bodyT domainListJsonPH (jsonDumpsIndent1 domains) ++ ['\n']
  domains.foldl (fun tmpl domain => tmpl ++ (renderRuleBlock ruleBlock domain ++ ['\n'])) tmpl₀

/-- One entry of the upload queue (lines 93–99). -/
structure SyncTask where
  name : List Char
  entity : List Char
  rules : List Char
  id : Option (List Char)
deriving DecidableEq

/-- `build_rulesets` (lines 91–99): one task per entity kind, in
`RULESET_ENTITY` order (the queue is FIFO); the task carries the remote id
exactly when a fetched record exists for that kind.  `kindT` maps an entity
kind to the contents of its template file. -/
def build_rulesets (bodyT : List Char) (kindT : List Char → List Char)
    (rulesets : RulesetMap) (domains : List (List Char)) : List SyncTask :=
  RULESET_ENTITY.map (fun entity =>
    { name := RULESET_STEM ++ entity
      entity := entity
      rules := render_template bodyT (kindT entity) domains
      id := (dictGet rulesets entity).map (·.id) })

/-- Python truthiness of an optional string flag (`if args.add_domain:`):
`None` and the empty string are falsy. -/
def truthy (o : Option (List Char)) : Option (List Char) :=
  match o with
  | some [] => none
  | o => o

/-- `list(set(new_domain_list)); new_domain_list.sort()` (lines 192–193): the
canonical list — the distinct elements in ascending (code-point lexicographic)
order.  Python's arbitrary set iteration order is irrelevant because the sort
makes the result unique. -/
def canonicalize (l : List (List Char)) : List (List Char) :=
  List.insertionSort (· ≤ ·) l.dedup

/-- The message printed before `sys.exit(1)` when the deleted domain is
missing (line 188). -/
def notInListMsg (d : List Char) : List Char :=
  "* ".data ++ d ++ " not in list".data

/-- Lines 182–193 of `main`: copy the current list, append the added domain
(if the flag is truthy), check membership of the deleted domain in the
resulting list — exiting with status 1 on failure — remove its first
occurrence (`list.remove`), then deduplicate and sort.  `Except.error` is the
fatal `sys.exit(1)` path, carrying the printed message. -/
def reconcile (domains : List (List Char)) (addDomain deleteDomain : Option (List Char)) :
    Except (List Char) (List (List Char)) :=
  let l₁ := match truthy addDomain with
    | some a => domains ++ [a]
    | none => domains
  match truthy deleteDomain with
  | some d =>
    if d ∈ l₁ then .ok (canonicalize (l₁.erase d))
    else .error (notInListMsg d)
  | none => .ok (canonicalize l₁)

/-- What a run decides to do after reconciliation. -/
inductive Outcome where
  | nothingToDo
  | sync (tasks : List SyncTask)
deriving DecidableEq

/-- Lines 195–211 of `main`: compare the canonical new list against the list
as fetched (`new_domain_list != domains`); enqueue one task per entity kind if
they differ, otherwise print `Nothing to do`. -/
def syncDecision (bodyT : List Char) (kindT : List Char → List Char)
    (rulesets : RulesetMap) (domains newList : List (List Char)) : Outcome :=
  if newList ≠ domains then .sync (build_rulesets bodyT kindT rulesets newList)
  else .nothingToDo

/-- The current domain list of a run: the `domains` field of the `'url'`
record, `[]` when absent (line 171). -/
def urlDomains (rulesets : RulesetMap) : List (List Char) :=
  ((dictGet rulesets "url".data).map (·.domains)).getD []

/-- The empty-list message of lines 168 and 174. -/
def emptyListMsg : List Char :=
  "* Empty domain list, use --add-domain domain.tld to register one".data

/-- Lines 166–211 of `main` after the fetched rulesets are in hand, for a run
without `--list`: the empty-fetch guard (lines 167–169, exit 1), then
reconciliation and the synchronization decision.  `Except.error` carries the
message of a fatal exit-1 path, on which no task is ever built and no network
write is issued. -/
def runMain (bodyT : List Char) (kindT : List Char → List Char)
    (rulesets : RulesetMap) (addDomain deleteDomain : Option (List Char)) :
    Except (List Char) Outcome :=
  if rulesets = [] ∧ truthy addDomain = none then .error emptyListMsg
  else
    let domains := urlDomains rulesets
    match reconcile domains addDomain deleteDomain with
    | .error e => .error e
    | .ok newList => .ok (syncDecision bodyT kindT rulesets domains newList)

/-- Modelled from the spec: the shared body template file
`netwatch_templates/_body.yara` is not part of the repository snapshot (only
the script that loads it is), so its contents are modelled after §4.2 and §6
of the specification — a comment block whose `---`-delimited second segment is
the `${domain_list_json}` placeholder, closed by `*/`. -/
def netwatchBodyTemplate : List Char :=
  ("/*\nAutogenerated network watch ruleset.\n---\n" ++
   "$\x7bdomain_list_json\x7d" ++ "\n---\n*/").data

/-- Modelled from the spec: the per-kind rule template files
`netwatch_templates/<entity>.yara` are not part of the repository snapshot, so
they are modelled after §4.2 of the specification — a rule block naming the
entity kind that uses the sanitized-identifier placeholder `${domain_escaped}`
and the literal-domain placeholder `${domain}`. -/
def netwatchKindTemplate (entity : List Char) : List Char :=
  "rule netwatch_".data ++ entity ++
    ("_$\x7bdomain_escaped\x7d matching $\x7bdomain\x7d").data

deriving instance DecidableEq for Except

set_option maxRecDepth 8000

/-- Fixture for end-to-end scenario 1: the fetched `'url'` ruleset record with
stored domain list `["b.com"]` and self-consistent rendered rule text. -/
def scenario1UrlRecord : RulesetRecord :=
  { id := "r1".data
    name := RULESET_STEM ++ "url".data
    rules := render_template netwatchBodyTemplate (netwatchKindTemplate "url".data)
      ["b.com".data]
    domains := ["b.com".data] }

/-- Fixture for end-to-end scenario 1: a fetched ruleset map holding only the
`'url'` kind. -/
def scenario1Rulesets : RulesetMap := [("url".data, scenario1UrlRecord)]

/-- Fixture: a fetched `'url'` record whose stored domain list is unsorted and
has a duplicate (the remote store is hand-editable, so the fetched list is an
arbitrary JSON array of strings). -/
def dupUrlRecord : RulesetRecord :=
  { id := "r2".data
    name := RULESET_STEM ++ "url".data
    rules := render_template netwatchBodyTemplate (netwatchKindTemplate "url".data)
      ["a.com".data, "a.com".data, "b.com".data]
    domains := ["a.com".data, "a.com".data, "b.com".data] }

/-- Fixture: a fetched ruleset map whose current domain list is non-canonical. -/
def dupRulesets : RulesetMap := [("url".data, dupUrlRecord)]

/-- Fixture: the raw `'url'` ruleset as yielded by the remote iterator. -/
def scenario1RawRuleset : RawRuleset :=
  { id := "r1".data
    name := RULESET_STEM ++ "url".data
    rules := scenario1UrlRecord.rules }

/-- The canonical list is sorted ascending (code-point lexicographic order on
strings, as Python's `list.sort()` uses). -/
theorem canonicalize_sorted (l : List (List Char)) :
    (canonicalize l).Sorted (· ≤ ·) :=
  List.sorted_insertionSort _ _

/-- The canonical list has no duplicates. -/
theorem canonicalize_nodup (l : List (List Char)) : (canonicalize l).Nodup :=
  ((List.perm_insertionSort _ _).nodup_iff).mpr (List.nodup_dedup l)

/-- Membership in the canonical list is membership in the input. -/
theorem mem_canonicalize {a : List Char} {l : List (List Char)} :
    a ∈ canonicalize l ↔ a ∈ l := by
  rw [canonicalize, List.Perm.mem_iff (List.perm_insertionSort _ _), List.mem_dedup]

/-- Two inputs with the same members canonicalize identically (sortedness plus
nodup make the canonical form unique). -/
theorem canonicalize_eq_of_mem_iff {l₁ l₂ : List (List Char)}
    (h : ∀ a, a ∈ l₁ ↔ a ∈ l₂) : canonicalize l₁ = canonicalize l₂ := by
  apply List.eq_of_perm_of_sorted _ (canonicalize_sorted l₁) (canonicalize_sorted l₂)
  rw [List.perm_ext_iff_of_nodup (canonicalize_nodup l₁) (canonicalize_nodup l₂)]
  intro a
  rw [mem_canonicalize, mem_canonicalize]
  exact h a

/-- Canonicalization is idempotent. -/
theorem canonicalize_idem (l : List (List Char)) :
    canonicalize (canonicalize l) = canonicalize l :=
  canonicalize_eq_of_mem_iff (fun _ => mem_canonicalize)

/-- A non-empty string is truthy. -/
theorem truthy_some_of_ne_nil {d : List Char} (hd : d ≠ []) :
    truthy (some d) = some d := by
  cases d with
  | nil => exact absurd rfl hd
  | cons c cs => rfl

/-- `None` is falsy. -/
theorem truthy_none : truthy none = none := rfl

/-- Closed form of the imperative string accumulation of `render_template`. -/
theorem foldl_append_flatten {α : Type} (f : α → List Char) :
    ∀ (l : List α) (init : List Char),
      l.foldl (fun acc x => acc ++ f x) init = init ++ (l.map f).flatten := by
  intro l
  induction l with
  | nil => intro init; simp
  | cons x xs ih =>
    intro init
    simp only [List.foldl_cons, List.map_cons, List.flatten_cons, ih, List.append_assoc]

/-- C4: for every old domain list and add/delete inputs the reconciler
accepts, the canonical new list it produces is sorted in ascending
lexicographic order and contains no duplicates. -/
theorem reconcile_canonical_invariant (domains : List (List Char))
    (addDomain deleteDomain : Option (List Char)) (newList : List (List Char))
    (h : reconcile domains addDomain deleteDomain = .ok newList) :
    newList.Sorted (· ≤ ·) ∧ newList.Nodup := by
  cases htd : truthy deleteDomain with
  | none =>
    simp only [reconcile, htd, Except.ok.injEq] at h
    subst h
    exact ⟨canonicalize_sorted _, canonicalize_nodup _⟩
  | some d =>
    simp only [reconcile, htd] at h
    split at h
    · simp only [Except.ok.injEq] at h
      subst h
      exact ⟨canonicalize_sorted _, canonicalize_nodup _⟩
    · exact absurd h (by simp)

/-- Witness for C4 at a concrete accepted input. -/
theorem reconcile_canonical_invariant_witness :
    (["a.com".data, "b.com".data] : List (List Char)).Sorted (· ≤ ·) ∧
      (["a.com".data, "b.com".data] : List (List Char)).Nodup :=
  reconcile_canonical_invariant ["b.com".data] (some "a.com".data) none
    ["a.com".data, "b.com".data] (by decide)

/-- C5: applying the same add request twice (reconciling, then reconciling the
result with the same add) yields the same canonical list as applying it once. -/
theorem reconcile_add_idempotent (old : List (List Char)) (d : List Char)
    (l₁ l₂ : List (List Char))
    (h₁ : reconcile old (some d) none = .ok l₁)
    (h₂ : reconcile l₁ (some d) none = .ok l₂) :
    l₂ = l₁ := by
  by_cases hd : d = []
  · subst hd
    simp only [reconcile, truthy, Except.ok.injEq] at h₁ h₂
    subst h₁
    rw [← h₂, canonicalize_idem]
  · simp only [reconcile, truthy_none, truthy_some_of_ne_nil hd, Except.ok.injEq] at h₁ h₂
    subst h₁
    rw [← h₂]
    apply canonicalize_eq_of_mem_iff
    intro a
    constructor
    · intro ha
      rcases List.mem_append.mp ha with ha | ha
      · exact mem_canonicalize.mp ha
      · exact List.mem_append.mpr (Or.inr ha)
    · intro ha
      exact List.mem_append.mpr (Or.inl (mem_canonicalize.mpr ha))

/-- Witness for C5 at a concrete input. -/
theorem reconcile_add_idempotent_witness :
    (["a.com".data, "b.com".data] : List (List Char)) = ["a.com".data, "b.com".data] :=
  reconcile_add_idempotent ["b.com".data] "a.com".data
    ["a.com".data, "b.com".data] ["a.com".data, "b.com".data] (by decide) (by decide)

/-- C6: the rendered output is the body template with its placeholder replaced
by the JSON-encoded domain list, exactly once, followed by one rendered rule
block per domain in list order, each followed by a newline; for the empty
domain list the output is the body rendered with the empty JSON array `[]` and
no rule blocks. -/
theorem render_template_shape (bodyT ruleBlock : List Char)
    (domains : List (List Char)) :
    (render_template bodyT ruleBlock domains =
      pyReplace bodyT domainListJsonPH (jsonDumpsIndent1 domains) ++
        '\n' :: (domains.map (fun d => renderRuleBlock ruleBlock d ++ ['\n'])).flatten) ∧
    jsonDumpsIndent1 [] = ['[', ']'] ∧
    render_template bodyT ruleBlock [] =
      pyReplace bodyT domainListJsonPH ['[', ']'] ++ ['\n'] := by
  refine ⟨?_, rfl, rfl⟩
  unfold render_template
  rw [foldl_append_flatten (fun d => renderRuleBlock ruleBlock d ++ ['\n'])]
  simp [List.append_assoc]

/-- C7: for every ASCII domain string — the fragment on which the embedding
decides Python's Unicode-aware `\w` exactly, and which covers every legal
network host name — sanitization maps each character outside
alphanumeric/underscore to an underscore, pointwise; for the domain
`x.y-z.com` the sanitized identifier is `x_y_z_com`, and the rendered rule
block for kind `domain` contains the sanitized form where the escaped-domain
placeholder stood while the raw placeholder still renders `x.y-z.com`
literally. -/
theorem sanitize_pointwise_and_scenario3 (s : List Char) (i : Nat)
    (_hs : ∀ c ∈ s, c.toNat < 128) :
    ((sanitizeDomain s)[i]? =
      (s[i]?).map (fun c => if c.isAlphanum || c = '_' then c else '_')) ∧
    sanitizeDomain "x.y-z.com".data = "x_y_z_com".data ∧
    occursB "x_y_z_com".data
      (renderRuleBlock (netwatchKindTemplate "domain".data) "x.y-z.com".data) = true ∧
    occursB "x.y-z.com".data
      (renderRuleBlock (netwatchKindTemplate "domain".data) "x.y-z.com".data) = true := by
  refine ⟨?_, by decide, by decide, by decide⟩
  clear _hs
  induction s generalizing i with
  | nil => simp [sanitizeDomain]
  | cons c cs ih =>
    cases i with
    | zero => simp [sanitizeDomain]
    | succ n => simpa [sanitizeDomain] using ih n

/-- Witness for C7 at a concrete ASCII input (index 1 is the `.` of
`x.y-z.com`). -/
theorem sanitize_pointwise_and_scenario3_witness :
    ((sanitizeDomain "x.y-z.com".data)[1]? =
      (("x.y-z.com".data)[1]?).map
        (fun c => if c.isAlphanum || c = '_' then c else '_')) ∧
    sanitizeDomain "x.y-z.com".data = "x_y_z_com".data ∧
    occursB "x_y_z_com".data
      (renderRuleBlock (netwatchKindTemplate "domain".data) "x.y-z.com".data) = true ∧
    occursB "x.y-z.com".data
      (renderRuleBlock (netwatchKindTemplate "domain".data) "x.y-z.com".data) = true :=
  sanitize_pointwise_and_scenario3 "x.y-z.com".data 1 (by decide)

/-- C8: rendering is deterministic — two calls with identical domain lists
(and the same fixed template file contents) yield byte-identical output. -/
theorem render_template_deterministic (bodyT ruleBlock : List Char)
    (d₁ d₂ : List (List Char)) (h : d₁ = d₂) :
    render_template bodyT ruleBlock d₁ = render_template bodyT ruleBlock d₂ := by
  rw [h]

/-- Witness for C8 at a concrete input. -/
theorem render_template_deterministic_witness :
    render_template netwatchBodyTemplate (netwatchKindTemplate "url".data)
        ["a.com".data] =
      render_template netwatchBodyTemplate (netwatchKindTemplate "url".data)
        ["a.com".data] :=
  render_template_deterministic _ _ _ _ rfl

/-- C3: starting from old domains `["b.com"]` with an add request for
`"a.com"`, the canonical new list is `["a.com", "b.com"]`, exactly four
SyncTasks are produced — one per entity kind, in `RULESET_ENTITY` order — and
each task's rendered rule text carries the JSON array `["a.com", "b.com"]` in
its `---`-delimited comment header (witnessed by the script's own
`extract_domains_from_rule` recovering it). -/
theorem scenario1_add_produces_four_tasks :
    reconcile (urlDomains scenario1Rulesets) (some "a.com".data) none =
      .ok ["a.com".data, "b.com".data] ∧
    runMain netwatchBodyTemplate netwatchKindTemplate scenario1Rulesets
        (some "a.com".data) none =
      .ok (.sync (build_rulesets netwatchBodyTemplate netwatchKindTemplate
        scenario1Rulesets ["a.com".data, "b.com".data])) ∧
    (build_rulesets netwatchBodyTemplate netwatchKindTemplate scenario1Rulesets
        ["a.com".data, "b.com".data]).length = 4 ∧
    (build_rulesets netwatchBodyTemplate netwatchKindTemplate scenario1Rulesets
        ["a.com".data, "b.com".data]).map (·.entity) = RULESET_ENTITY ∧
    (∀ t ∈ build_rulesets netwatchBodyTemplate netwatchKindTemplate scenario1Rulesets
        ["a.com".data, "b.com".data],
      extract_domains_from_rule t.rules = some ["a.com".data, "b.com".data]) := by
  refine ⟨by decide, by decide, by decide, by decide, by decide⟩

/-- Counterexample to C1 as stated: with an empty current list, an invocation
that passes the same domain as both the add and the delete request names a
domain absent from the current list, yet no NotFound condition is signalled —
the membership check runs after the add was appended (line 187 checks
`new_domain_list`, not `domains`), so the run succeeds with nothing to do. -/
theorem claim1_counterexample :
    ("a.com".data ∉ urlDomains ([] : RulesetMap)) ∧
    runMain netwatchBodyTemplate netwatchKindTemplate []
        (some "a.com".data) (some "a.com".data) = .ok Outcome.nothingToDo := by
  exact ⟨by decide, by decide⟩

/-- C1 (amended): a delete request for a non-empty domain that is neither in
the current list nor equal to a simultaneously added domain — on a run that
passes the empty-fetch guard — makes the reconciler signal the NotFound
condition and exit with status 1, producing no task list (so the list is not
mutated and no network write is issued). -/
theorem runMain_delete_absent_fails (bodyT : List Char)
    (kindT : List Char → List Char) (rulesets : RulesetMap)
    (addDomain : Option (List Char)) (d : List Char)
    (hguard : ¬(rulesets = [] ∧ truthy addDomain = none)) (hd : d ≠ [])
    (hmem : d ∉ urlDomains rulesets)
    (hadd : ∀ a, truthy addDomain = some a → d ≠ a) :
    runMain bodyT kindT rulesets addDomain (some d) = .error (notInListMsg d) := by
  have hrec : reconcile (urlDomains rulesets) addDomain (some d) =
      .error (notInListMsg d) := by
    cases hta : truthy addDomain with
    | none =>
      simp only [reconcile, hta, truthy_some_of_ne_nil hd]
      rw [if_neg hmem]
    | some a =>
      simp only [reconcile, hta, truthy_some_of_ne_nil hd]
      rw [if_neg]
      intro hc
      rcases List.mem_append.mp hc with hc | hc
      · exact hmem hc
      · exact hadd a hta (List.mem_singleton.mp hc)
  simp only [runMain]
  rw [if_neg hguard, hrec]

/-- Witness for the amended C1 at a concrete input. -/
theorem runMain_delete_absent_fails_witness :
    runMain netwatchBodyTemplate netwatchKindTemplate scenario1Rulesets none
        (some "c.com".data) = .error (notInListMsg "c.com".data) :=
  runMain_delete_absent_fails netwatchBodyTemplate netwatchKindTemplate
    scenario1Rulesets none "c.com".data (by decide) (by decide) (by decide)
    (fun a h => by rw [truthy_none] at h; exact Option.noConfusion h)

/-- Counterexample to C2 as stated: with a fetched (non-canonical) current
list `["a.com", "a.com", "b.com"]` and an add request for `"a.com"`, the
canonical new list equals the canonical old list, yet the run does not report
"nothing to do" — line 195 compares the canonical new list against the raw
fetched list, not against the canonical old list. -/
theorem claim2_counterexample :
    canonicalize (urlDomains dupRulesets) = ["a.com".data, "b.com".data] ∧
    reconcile (urlDomains dupRulesets) (some "a.com".data) none =
      .ok ["a.com".data, "b.com".data] ∧
    runMain netwatchBodyTemplate netwatchKindTemplate dupRulesets
        (some "a.com".data) none ≠ .ok Outcome.nothingToDo := by
  exact ⟨by decide, by decide, by decide⟩

/-- C2 (amended): on a run that passes the empty-fetch guard, if the canonical
new list equals the old list as fetched then no SyncTasks are created and the
run reports "nothing to do"; otherwise synchronization proceeds with exactly
one task per tracked entity kind. -/
theorem runMain_sync_iff_changed (bodyT : List Char)
    (kindT : List Char → List Char) (rulesets : RulesetMap)
    (addDomain deleteDomain : Option (List Char)) (newList : List (List Char))
    (hguard : ¬(rulesets = [] ∧ truthy addDomain = none))
    (hrec : reconcile (urlDomains rulesets) addDomain deleteDomain = .ok newList) :
    (newList = urlDomains rulesets →
      runMain bodyT kindT rulesets addDomain deleteDomain = .ok .nothingToDo) ∧
    (newList ≠ urlDomains rulesets →
      runMain bodyT kindT rulesets addDomain deleteDomain =
        .ok (.sync (build_rulesets bodyT kindT rulesets newList)) ∧
      (build_rulesets bodyT kindT rulesets newList).map (·.entity) =
        RULESET_ENTITY) := by
  constructor
  · intro heq
    simp only [runMain]
    rw [if_neg hguard, hrec]
    simp only [syncDecision]
    rw [if_neg (not_not_intro heq)]
  · intro hchanged
    refine ⟨?_, rfl⟩
    simp only [runMain]
    rw [if_neg hguard, hrec]
    simp only [syncDecision]
    rw [if_pos hchanged]

/-- Witness for the amended C2 at a concrete input (the changed branch). -/
theorem runMain_sync_iff_changed_witness :
    runMain netwatchBodyTemplate netwatchKindTemplate scenario1Rulesets
        (some "a.com".data) none =
      .ok (.sync (build_rulesets netwatchBodyTemplate netwatchKindTemplate
        scenario1Rulesets ["a.com".data, "b.com".data])) ∧
    (build_rulesets netwatchBodyTemplate netwatchKindTemplate scenario1Rulesets
        ["a.com".data, "b.com".data]).map (·.entity) = RULESET_ENTITY :=
  (runMain_sync_iff_changed netwatchBodyTemplate netwatchKindTemplate
    scenario1Rulesets (some "a.com".data) none ["a.com".data, "b.com".data]
    (by decide) (by decide)).2 (by decide)

/-- The fetch loop, run from any accumulator: if a prefix of the event stream
is processed cleanly (no error, nothing logged), then an API error arriving
next stops the iteration, is logged, and the records collected so far are
returned — events after the error are never examined. -/
theorem getRulesetsLoop_stops_at_apiError (msg : List Char)
    (post : List FetchEvent) :
    ∀ (pre : List FetchEvent) (acc m : RulesetMap),
      getRulesetsLoop pre acc = .ok (m, []) →
      getRulesetsLoop (pre ++ .apiError msg :: post) acc =
        .ok (m, [fetchErrorLine msg]) := by
  intro pre
  induction pre with
  | nil =>
    intro acc m h
    simp only [getRulesetsLoop, Except.ok.injEq, Prod.mk.injEq] at h
    obtain ⟨h1, -⟩ := h
    subst h1
    simp [getRulesetsLoop]
  | cons e rest ih =>
    intro acc m h
    cases e with
    | apiError msg' =>
      simp only [getRulesetsLoop, Except.ok.injEq, Prod.mk.injEq] at h
      exact absurd h.2 (by simp)
    | item r =>
      simp only [List.cons_append, getRulesetsLoop] at h ⊢
      cases hent : entityOfName r.name with
      | none =>
        rw [hent] at h
        exact absurd h (by simp)
      | some ent =>
        rw [hent] at h
        cases hext : extract_domains_from_rule r.rules with
        | none =>
          rw [hext] at h
          exact absurd h (by simp)
        | some doms =>
          rw [hext] at h
          exact ih _ _ h

/-- C9: if a remote API error occurs while fetching rulesets, the fetcher logs
the error line and returns the mapping of records collected before the error
(possibly empty) instead of raising; the fetch never aborts the run at this
stage. -/
theorem get_rulesets_partial_on_apiError (pre : List FetchEvent)
    (msg : List Char) (post : List FetchEvent) (m : RulesetMap)
    (h : get_rulesets pre = .ok (m, [])) :
    get_rulesets (pre ++ .apiError msg :: post) =
      .ok (m, [fetchErrorLine msg]) :=
  getRulesetsLoop_stops_at_apiError msg post pre [] m h

/-- Witness for C9 at a concrete input (one collected record, then the
error). -/
theorem get_rulesets_partial_on_apiError_witness :
    get_rulesets ([.item scenario1RawRuleset] ++
        .apiError "quota exceeded".data :: []) =
      .ok ([("url".data, scenario1UrlRecord)],
        [fetchErrorLine "quota exceeded".data]) :=
  get_rulesets_partial_on_apiError [.item scenario1RawRuleset]
    "quota exceeded".data [] [("url".data, scenario1UrlRecord)] (by decide)

/-- C10: when one invocation passes the same non-empty domain as both the add
and the delete request and that domain is absent from the current list, the
membership check (performed after the add was appended) passes, no NotFound
condition is signalled, the run succeeds, and the canonical new list is the
canonicalized old list. -/
theorem runMain_add_then_delete_same_succeeds (bodyT : List Char)
    (kindT : List Char → List Char) (rulesets : RulesetMap) (d : List Char)
    (hd : d ≠ []) (hmem : d ∉ urlDomains rulesets) :
    reconcile (urlDomains rulesets) (some d) (some d) =
      .ok (canonicalize (urlDomains rulesets)) ∧
    runMain bodyT kindT rulesets (some d) (some d) =
      .ok (syncDecision bodyT kindT rulesets (urlDomains rulesets)
        (canonicalize (urlDomains rulesets))) := by
  have herase : (urlDomains rulesets ++ [d]).erase d = urlDomains rulesets := by
    rw [List.erase_append_right _ hmem, List.erase_cons_head]
    simp
  have hrec : reconcile (urlDomains rulesets) (some d) (some d) =
      .ok (canonicalize (urlDomains rulesets)) := by
    simp only [reconcile, truthy_some_of_ne_nil hd]
    rw [if_pos (List.mem_append.mpr (Or.inr (List.mem_singleton_self d))), herase]
  refine ⟨hrec, ?_⟩
  have hguard : ¬(rulesets = [] ∧ truthy (some d) = none) := by
    intro hc
    rw [truthy_some_of_ne_nil hd] at hc
    exact Option.noConfusion hc.2
  simp only [runMain]
  rw [if_neg hguard, hrec]

/-- Witness for C10 at a concrete input. -/
theorem runMain_add_then_delete_same_succeeds_witness :
    reconcile (urlDomains scenario1Rulesets) (some "c.com".data)
        (some "c.com".data) =
      .ok (canonicalize (urlDomains scenario1Rulesets)) ∧
    runMain netwatchBodyTemplate netwatchKindTemplate scenario1Rulesets
        (some "c.com".data) (some "c.com".data) =
      .ok (syncDecision netwatchBodyTemplate netwatchKindTemplate
        scenario1Rulesets (urlDomains scenario1Rulesets)
        (canonicalize (urlDomains scenario1Rulesets))) :=
  runMain_add_then_delete_same_succeeds netwatchBodyTemplate
    netwatchKindTemplate scenario1Rulesets "c.com".data (by decide) (by decide)
